import Mathlib

/-!
Verification of the lyric-vault matching and ranking engine.

Strings are modelled as lists of characters (`Str`).  The JavaScript string
and regular-expression primitives used by the source (`toLowerCase`,
`slice(-n)`, `endsWith`, `includes`, `split(/\s+/)`, `match(/[aeiou]+/g)`)
are given explicit executable models below; each model's doc comment names
the JavaScript operation it translates.
-/

namespace LyricVault

/-!
## Definitions: translations of the source, and of the specification where
a claim compares the two
-/

/-- Strings are modelled as lists of characters. -/
abbrev Str := List Char

/-- Model of JavaScript `String.prototype.toLowerCase` (ASCII case folding). -/
def lowerStr (s : Str) : Str := s.map Char.toLower

/-- The last `n` characters of a string: model of JavaScript `s.slice(-n)`
(for `n > 0`; when the string is shorter than `n` the whole string results,
as in JavaScript). -/
def lastN (n : Nat) (s : Str) : Str := s.drop (s.length - n)

/-- Model of JavaScript `haystack.endsWith(suffix)`. -/
def endsWithB (s suffix : Str) : Bool := decide (lastN suffix.length s = suffix)

/-- Model of JavaScript `haystack.includes(needle)` (contiguous substring test). -/
def containsSub : Str → Str → Bool
  | [], needle => decide (needle = [])
  | c :: rest, needle =>
    decide ((c :: rest).take needle.length = needle) || containsSub rest needle

/-- The apostrophe character (code point 39). -/
def apostChar : Char := Char.ofNat 39

/-- The double-quote character (code point 34). -/
def dquoteChar : Char := Char.ofNat 34

/-- Character class of JavaScript `\w`: ASCII letters, digits and underscore. -/
def isWordChar (c : Char) : Bool := c.isAlphanum || c == '_'

/-- Whitespace, modelling the JavaScript `\s` class on the source's inputs. -/
def isSpaceChar (c : Char) : Bool := c.isWhitespace

/-- Separator class of the mood regular expression `[\s,]+`. -/
def isMoodSep (c : Char) : Bool := c.isWhitespace || c == ','

/-- One step of `splitSep`'s right fold.  The Boolean records whether the
character just to the right was a separator, so that a run of separators
produces a single boundary. -/
def splitStep (isSep : Char → Bool) (c : Char) (st : Bool × List Str) : Bool × List Str :=
  if isSep c then
    if st.1 then st else (true, [] :: st.2)
  else
    (false, match st.2 with
      | [] => [[c]]
      | t :: ts => (c :: t) :: ts)

/-- Model of JavaScript `s.split(re)` for a regular expression that is a
single character class with a `+` quantifier (`/\s+/`, `/[\s,]+/`): the
string is cut at each maximal run of separator characters, a leading run
yields a leading empty token and a trailing run a trailing empty token,
and the empty string yields one empty token. -/
def splitSep (isSep : Char → Bool) (s : Str) : List Str :=
  (s.foldr (splitStep isSep) (false, [[]])).2

/-- The five vowels recognised by the source's vowel regular expression. -/
def isVowel (c : Char) : Bool :=
  c == 'a' || c == 'e' || c == 'i' || c == 'o' || c == 'u'

/-- One step of `vowelRuns`' right fold.  The Boolean records whether the
character just to the right was a vowel, so consecutive vowels extend the
current maximal run. -/
def vowelStep (c : Char) (st : Bool × List Str) : Bool × List Str :=
  if isVowel c then
    match st with
    | (true, r :: rs) => (true, (c :: r) :: rs)
    | (_, rs) => (true, [c] :: rs)
  else (false, st.2)

/-- Model of JavaScript `s.match(/[aeiou]+/g)`: the list of maximal runs of
vowels in `s`, in order (the empty list when there is no vowel, matching the
`?? []` default at the call sites). -/
def vowelRuns (s : Str) : List Str := (s.foldr vowelStep (false, [])).2

/-- Model of JavaScript `array.join(', ')`. -/
def joinComma : List Str → Str
  | [] => []
  | [w] => w
  | w :: ws => w ++ [',', ' '] ++ joinComma ws

/-- Kernel-computable rational addition. -/
def qadd (a b : ℚ) : ℚ := mkRat (a.num * b.den + b.num * a.den) (a.den * b.den)

/-- Kernel-computable rational multiplication. -/
def qmul (a b : ℚ) : ℚ := mkRat (a.num * b.num) (a.den * b.den)

/-- Kernel-computable rational division. -/
def qdiv (a b : ℚ) : ℚ := Rat.divInt (a.num * b.den) (a.den * b.num)

/-- Kernel-computable rational negation. -/
def qneg (a : ℚ) : ℚ := mkRat (-a.num) a.den

/-- Kernel-computable rational subtraction. -/
def qsub (a b : ℚ) : ℚ := qadd a (qneg b)

/-- Model of JavaScript `Math.min` on rationals. -/
def qmin (a b : ℚ) : ℚ := if a ≤ b then a else b

/-- Model of JavaScript `Math.min` on array lengths. -/
def natMin (a b : Nat) : Nat := if a ≤ b then a else b

/-- Model of JavaScript `Math.max` on array lengths. -/
def natMax (a b : Nat) : Nat := if a ≤ b then b else a

/-- The rhyme-pattern token of one word: its last 4 characters when the word
has length at least 4, otherwise its last 3 characters
(`word.length >= 4 ? word.slice(-4) : word.slice(-3)`). -/
def ending (word : Str) : Str :=
  if 4 ≤ word.length then lastN 4 word else lastN 3 word

/-- The deduplicating loop of `extractRhymePatterns`: walk the word list,
keep each word's `ending` the first time it is seen (`seen` collects the
endings already pushed, modelling the JavaScript `Set`). -/
def extractAux : List Str → List Str → List Str
  | [], _seen => []
  | word :: words, seen =>
    let e := ending word
    if e ∈ seen then extractAux words seen
    else e :: extractAux words (e :: seen)

/-- `extractRhymePatterns` from src/utils/rhyme.ts: lowercase the text, drop
every character outside `[\w\s']` (word characters, whitespace, apostrophe),
split on whitespace, keep only words of length at least 3, and collect each
word's `ending`, deduplicated in first-occurrence order. -/
def extractRhymePatterns (text : Str) : List Str :=
  let words :=
    (splitSep isSpaceChar
      ((lowerStr text).filter (fun c => isWordChar c || isSpaceChar c || c == apostChar))).filter
      (fun word => 3 ≤ word.length)
  extractAux words []

/-- `rhymeMatch` from src/utils/rhyme.ts: lowercase both patterns, then test
exact equality; then whether `p2` ends with the last 3 or the last 2
characters of `p1`; then whether the concatenated vowel runs of both sides
have length at least 2 and agree on their last 2 characters. -/
def rhymeMatch (pattern1 pattern2 : Str) : Bool :=
  let p1 := lowerStr pattern1
  let p2 := lowerStr pattern2
  if p1 = p2 then true
  else
    let ending2 := lastN 2 p1
    let ending3 := lastN 3 p1
    if endsWithB p2 ending3 || endsWithB p2 ending2 then true
    else
      let p1Vowels := (vowelRuns p1).flatten
      let p2Vowels := (vowelRuns p2).flatten
      if 2 ≤ p1Vowels.length ∧ 2 ≤ p2Vowels.length then
        decide (lastN 2 p1Vowels = lastN 2 p2Vowels)
      else false

/-- The inner loop of `calculateRhymeScore`: scan `patterns2` from index
`start` upward and return the first index that is not yet in `checked` and
whose pattern `rhymeMatch`es `p1`. -/
def findIdx2 (p1 : Str) : List Str → Nat → List Nat → Option Nat
  | [], _start, _checked => none
  | p :: ps, start, checked =>
    if start ∉ checked ∧ rhymeMatch p1 p = true then some start
    else findIdx2 p1 ps (start + 1) checked

/-- The outer loop of `calculateRhymeScore`: for each element of `patterns1`
in order, claim the first unclaimed matching index of `patterns2` (adding it
to `checked`) and count the claims.  Returns the match count and the final
claimed set. -/
def greedyMatches : List Str → List Str → List Nat → Nat × List Nat
  | [], _patterns2, checked => (0, checked)
  | p1 :: rest, patterns2, checked =>
    match findIdx2 p1 patterns2 0 checked with
    | some i =>
      let r := greedyMatches rest patterns2 (i :: checked)
      (r.1 + 1, r.2)
    | none => greedyMatches rest patterns2 checked

/-- `calculateRhymeScore` from src/utils/rhyme.ts: zero when either pattern
list is empty, otherwise the greedy one-to-one match count divided by the
smaller list length, capped at 1. -/
def calculateRhymeScore (patterns1 patterns2 : List Str) : ℚ :=
  if patterns1.length = 0 ∨ patterns2.length = 0 then 0
  else
    let matchCount := (greedyMatches patterns1 patterns2 []).1
    let minLength := natMin patterns1.length patterns2.length
    qmin (qdiv (matchCount : ℚ) (minLength : ℚ)) 1

/-- `LyricAnalysis` from src/types/index.ts. -/
structure LyricAnalysis where
  themes : List Str
  rhyme_patterns : List Str
  mood : Str
  imagery_tags : List Str
deriving DecidableEq

/-- `Lyric` from src/types/index.ts. -/
structure Lyric where
  id : Nat
  lyric_text : Str
  created_at : Str
  themes : List Str
  rhyme_patterns : List Str
  mood : Str
  imagery_tags : List Str
  raw_analysis : Str
deriving DecidableEq

/-- The `{ score, reasons }` record returned by `calculateMatchScore`. -/
structure MatchScore where
  score : ℚ
  reasons : List Str
deriving DecidableEq

/-- `LyricSuggestion` from src/types/index.ts; the optional
`suggested_adaptation` field is an `Option`. -/
structure LyricSuggestion where
  lyric : Lyric
  match_score : ℚ
  match_reasons : List Str
  suggested_adaptation : Option Str
deriving DecidableEq

/-- The shared-element filter used for the theme and imagery factors of
`calculateMatchScore`: keep the input-side elements for which some
candidate-side element contains them or is contained in them,
case-insensitively (`storedTheme.toLowerCase().includes(theme.toLowerCase())
|| theme.toLowerCase().includes(storedTheme.toLowerCase())`). -/
def sharedOverlap (input cand : List Str) : List Str :=
  input.filter (fun elem =>
    cand.any (fun candElem =>
      containsSub (lowerStr candElem) (lowerStr elem) ||
      containsSub (lowerStr elem) (lowerStr candElem)))

/-- The lowercased whitespace/comma tokens of a mood string
(`mood.toLowerCase().split(/[\s,]+/)`). -/
def moodWords (mood : Str) : List Str := splitSep isMoodSep (lowerStr mood)

/-- The shared mood tokens: tokens of the first mood string for which some
token of the second contains them or is contained in them. -/
def sharedMoodTokens (m1 m2 : Str) : List Str :=
  (moodWords m1).filter (fun word =>
    (moodWords m2).any (fun storedWord =>
      containsSub storedWord word || containsSub word storedWord))

/-- Theme factor of `calculateMatchScore` (weight 0.35): contribution to the
running total, and the reason list pushed. -/
def themePart (inputAnalysis : LyricAnalysis) (storedLyric : Lyric) : ℚ × List Str :=
  let sharedThemes := sharedOverlap inputAnalysis.themes storedLyric.themes
  if 0 < sharedThemes.length then
    (qmul (qmin (qdiv (sharedThemes.length : ℚ)
        ((natMax inputAnalysis.themes.length 1 : Nat) : ℚ)) 1) (mkRat 35 100),
     [("Shared themes: ").toList ++ joinComma sharedThemes])
  else (0, [])

/-- Rhyme factor of `calculateMatchScore` (weight 0.30): the contribution is
added whenever the rhyme score is positive, but the reason is pushed only
when it exceeds 0.3. -/
def rhymePart (inputAnalysis : LyricAnalysis) (storedLyric : Lyric) : ℚ × List Str :=
  let rhymeScore := calculateRhymeScore inputAnalysis.rhyme_patterns storedLyric.rhyme_patterns
  if 0 < rhymeScore then
    (qmul rhymeScore (mkRat 30 100),
     if mkRat 3 10 < rhymeScore then [("Compatible rhyme patterns").toList] else [])
  else (0, [])

/-- Mood factor of `calculateMatchScore` (weight 0.25): skipped entirely
(JavaScript truthiness of `inputAnalysis.mood && storedLyric.mood`) when
either mood string is empty. -/
def moodPart (inputAnalysis : LyricAnalysis) (storedLyric : Lyric) : ℚ × List Str :=
  if inputAnalysis.mood ≠ [] ∧ storedLyric.mood ≠ [] then
    let sharedMoodWords := sharedMoodTokens inputAnalysis.mood storedLyric.mood
    if 0 < sharedMoodWords.length then
      (qmul (qmin (qdiv (sharedMoodWords.length : ℚ)
          ((natMax (moodWords inputAnalysis.mood).length 1 : Nat) : ℚ)) 1) (mkRat 25 100),
       [("Similar mood: ").toList ++ storedLyric.mood])
    else (0, [])
  else (0, [])

/-- Imagery factor of `calculateMatchScore` (weight 0.10). -/
def imageryPart (inputAnalysis : LyricAnalysis) (storedLyric : Lyric) : ℚ × List Str :=
  let sharedImagery := sharedOverlap inputAnalysis.imagery_tags storedLyric.imagery_tags
  if 0 < sharedImagery.length then
    (qmul (qmin (qdiv (sharedImagery.length : ℚ)
        ((natMax inputAnalysis.imagery_tags.length 1 : Nat) : ℚ)) 1) (mkRat 10 100),
     [("Matching imagery: ").toList ++ joinComma sharedImagery])
  else (0, [])

/-- `calculateMatchScore` from src/commands/list.ts: accumulate the four
weighted factor contributions and the reasons in source order, accumulate
the weight total, and normalise by it (`weights > 0 ? totalScore / weights
: 0`). -/
def calculateMatchScore (inputAnalysis : LyricAnalysis) (storedLyric : Lyric) : MatchScore :=
  let totalScore :=
    qadd (qadd (qadd (themePart inputAnalysis storedLyric).1
      (rhymePart inputAnalysis storedLyric).1)
      (moodPart inputAnalysis storedLyric).1)
      (imageryPart inputAnalysis storedLyric).1
  let weights := qadd (qadd (qadd (mkRat 35 100) (mkRat 30 100)) (mkRat 25 100)) (mkRat 10 100)
  let reasons :=
    (themePart inputAnalysis storedLyric).2 ++ (rhymePart inputAnalysis storedLyric).2 ++
    (moodPart inputAnalysis storedLyric).2 ++ (imageryPart inputAnalysis storedLyric).2
  { score := if 0 < weights then qdiv totalScore weights else 0, reasons := reasons }

/-- The suggestion-collection loop of `suggestCommand`: keep a candidate only
when its score exceeds 0.1 and its reason list is non-empty. -/
def suggestionsFor (inputAnalysis : LyricAnalysis) (allLyrics : List Lyric) :
    List LyricSuggestion :=
  allLyrics.filterMap (fun lyric =>
    let result := calculateMatchScore inputAnalysis lyric
    if mkRat 1 10 < result.score ∧ result.reasons ≠ [] then
      some { lyric := lyric, match_score := result.score, match_reasons := result.reasons,
             suggested_adaptation := none }
    else none)

/-- The sort of `suggestCommand`
(`suggestions.sort((a, b) => b.match_score - a.match_score)`): JavaScript
`Array.prototype.sort` is a stable sort, modelled by insertion sort under
the descending-score relation. -/
def sortSuggestions (suggestions : List LyricSuggestion) : List LyricSuggestion :=
  List.insertionSort (fun a b => b.match_score ≤ a.match_score) suggestions

/-- Model of JavaScript `String.prototype.trim`. -/
def trimStr (s : Str) : Str :=
  ((s.dropWhile Char.isWhitespace).reverse.dropWhile Char.isWhitespace).reverse

/-- One quote-stripping step of `generateAdaptations`: when the string both
starts and ends with the quote character, remove both (`slice(1, -1)`). -/
def stripWrap (q : Char) (s : Str) : Str :=
  if s.head? = some q ∧ s.getLast? = some q then (s.drop 1).dropLast else s

/-- The adaptation clean-up of `generateAdaptations`: trim, then strip a
wrapping pair of double quotes, then a wrapping pair of single quotes. -/
def cleanAdaptation (adaptation : Str) : Str :=
  stripWrap apostChar (stripWrap dquoteChar (trimStr adaptation))

/-- One iteration of the `generateAdaptations` loop.  The external model
call (`ollama.generate`) is modelled by an oracle; `some` is a successful
generation and `none` a thrown error, which the `catch` turns into the
unchanged suggestion. -/
def adaptOne (oracle : LyricSuggestion → Option Str) (suggestion : LyricSuggestion) :
    LyricSuggestion :=
  match oracle suggestion with
  | some adaptation =>
    { suggestion with suggested_adaptation := some (cleanAdaptation adaptation) }
  | none => suggestion

/-- The `generateAdaptations` loop, pushing each processed suggestion onto
the accumulator in order. -/
def generateAdaptationsAux (oracle : LyricSuggestion → Option Str) :
    List LyricSuggestion → List LyricSuggestion → List LyricSuggestion
  | acc, [] => acc
  | acc, s :: rest => generateAdaptationsAux oracle (acc ++ [adaptOne oracle s]) rest

/-- `generateAdaptations` from src/commands/list.ts. -/
def generateAdaptations (oracle : LyricSuggestion → Option Str)
    (suggestions : List LyricSuggestion) : List LyricSuggestion :=
  generateAdaptationsAux oracle [] suggestions

/-- Forget the `suggested_adaptation` field. -/
def stripAdapt (s : LyricSuggestion) : LyricSuggestion :=
  { s with suggested_adaptation := none }

/-- The ranking tail of `suggestCommand`: sort, take the top 5 for display,
adapt the top 3 of those, and return the adapted prefix followed by the
untouched remainder (`[...adaptedSuggestions, ...topSuggestions.slice(3)]`). -/
def rankedDisplay (oracle : LyricSuggestion → Option Str)
    (suggestions : List LyricSuggestion) : List LyricSuggestion :=
  let sorted := sortSuggestions suggestions
  let topSuggestions := sorted.take 5
  let suggestionsForAdaptation := topSuggestions.take 3
  generateAdaptations oracle suggestionsForAdaptation ++ topSuggestions.drop 3

/-- The overlap sub-score of the specification for the theme and imagery
factors: shared count over input size (floored at 1), capped at 1. -/
def overlapScore (input cand : List Str) : ℚ :=
  min (((sharedOverlap input cand).length : ℚ) / ((max input.length 1 : Nat) : ℚ)) 1

/-- Theme sub-score of the specification. -/
def themeSubscore (a : LyricAnalysis) (l : Lyric) : ℚ := overlapScore a.themes l.themes

/-- Imagery sub-score of the specification. -/
def imagerySubscore (a : LyricAnalysis) (l : Lyric) : ℚ :=
  overlapScore a.imagery_tags l.imagery_tags

/-- Rhyme sub-score of the specification. -/
def rhymeSubscore (a : LyricAnalysis) (l : Lyric) : ℚ :=
  calculateRhymeScore a.rhyme_patterns l.rhyme_patterns

/-- Mood sub-score of the specification: zero when either mood string is
empty, otherwise the shared-token count over the input token count, capped
at 1. -/
def moodSubscore (a : LyricAnalysis) (l : Lyric) : ℚ :=
  if a.mood = [] ∨ l.mood = [] then 0
  else min (((sharedMoodTokens a.mood l.mood).length : ℚ) /
    ((max (moodWords a.mood).length 1 : Nat) : ℚ)) 1

/-- The accumulated weight total of `calculateMatchScore`. -/
def accumulatedWeightTotal : ℚ := 0.35 + 0.30 + 0.25 + 0.10

/-- The character class named by the specification for §4.1: letters,
digits, whitespace and apostrophes — with no underscore. -/
def specKeepChar (c : Char) : Bool := c.isAlphanum || c.isWhitespace || c == apostChar

/-- Deduplication preserving first-occurrence order, as the specification
words it. -/
def dedupFirst : List Str → List Str
  | [] => []
  | x :: xs => x :: (dedupFirst xs).filter (fun y => decide (y ≠ x))

/-- The extraction pipeline exactly as the specification words it:
lowercase, strip to letters/digits/whitespace/apostrophes, split on
whitespace, discard tokens shorter than 3, map each token to its
last-4-or-3-character ending, deduplicate preserving first occurrence. -/
def extractSpecStated (text : Str) : List Str :=
  dedupFirst
    (((splitSep isSpaceChar ((lowerStr text).filter specKeepChar)).filter
      (fun word => 3 ≤ word.length)).map ending)

/-- The same pipeline with the one amendment the code forces: underscores
are kept too (the source strips with `/[^\w\s']/g` and `\w` contains the
underscore). -/
def extractSpecAmended (text : Str) : List Str :=
  dedupFirst
    (((splitSep isSpaceChar
      ((lowerStr text).filter (fun c => isWordChar c || isSpaceChar c || c == apostChar))).filter
      (fun word => 3 ≤ word.length)).map ending)

/-- Modelled from the specification's wording of §4.3: claim the first
still-available element of the flagged list that `rhymeMatch`es the query,
marking it unavailable; `none` when no available element matches. -/
def markFirst (q : Str) : List (Str × Bool) → Option (List (Str × Bool))
  | [] => none
  | (p, avail) :: rest =>
    if avail = true ∧ rhymeMatch q p = true then some ((p, false) :: rest)
    else
      match markFirst q rest with
      | some rest2 => some ((p, avail) :: rest2)
      | none => none

/-- Modelled from the specification's wording of §4.3: iterate `patterns1`
in order, claiming at most one element of the flagged `patterns2` per
element, and count the claims. -/
def greedyCountSpec : List Str → List (Str × Bool) → Nat
  | [], _ => 0
  | q :: qs, avail =>
    match markFirst q avail with
    | some avail2 => greedyCountSpec qs avail2 + 1
    | none => greedyCountSpec qs avail

/-- The flagged view of `patterns2` together with a claimed-index set:
element `i` carries `true` while `i` is unclaimed. -/
def flagsFrom (n : Nat) (ps : List Str) (checked : List Nat) : List (Str × Bool) :=
  (List.enumFrom n ps).map (fun pair => (pair.2, decide (pair.1 ∉ checked)))

/-- Scale up by 2 (decreasing the exponent) until the mantissa reaches
`2^52`; the fuel bounds the loop far beyond the binary64 exponent range. -/
def scaleUp : Nat → ℚ → Int → ℚ × Int
  | 0, m, e => (m, e)
  | fuel + 1, m, e =>
    if m < mkRat 4503599627370496 1 then scaleUp fuel (qmul m (mkRat 2 1)) (e - 1)
    else (m, e)

/-- Scale down by 2 (increasing the exponent) until the mantissa is below
`2^53`. -/
def scaleDown : Nat → ℚ → Int → ℚ × Int
  | 0, m, e => (m, e)
  | fuel + 1, m, e =>
    if mkRat 9007199254740992 1 ≤ m then scaleDown fuel (qdiv m (mkRat 2 1)) (e + 1)
    else (m, e)

/-- Round a rational to the nearest integer, ties to even. -/
def roundTiesEven (m : ℚ) : Int :=
  let f := Rat.floor m
  let r := qsub m (mkRat f 1)
  if r < mkRat 1 2 then f
  else if mkRat 1 2 < r then f + 1
  else if f % 2 = 0 then f else f + 1

/-- `2 ^ e` as a rational, for an integer exponent. -/
def pow2 (e : Int) : ℚ := if 0 ≤ e then mkRat (2 ^ e.toNat) 1 else mkRat 1 (2 ^ (-e).toNat)

/-- Round a positive rational to the nearest binary64 value. -/
def flPos (q : ℚ) : ℚ :=
  let p1 := scaleUp 1200 q 0
  let p2 := scaleDown 1200 p1.1 p1.2
  qmul (mkRat (roundTiesEven p2.1) 1) (pow2 p2.2)

/-- Round a rational to the nearest binary64 value (normal range; no
overflow or subnormal handling, which the engine's values never reach). -/
def fl (q : ℚ) : ℚ :=
  if q = 0 then 0 else if 0 < q then flPos q else qneg (flPos (qneg q))

/-- The binary64 value of each weight literal. -/
def d035 : ℚ := fl (mkRat 35 100)

def d030 : ℚ := fl (mkRat 30 100)

def d025 : ℚ := fl (mkRat 25 100)

def d010 : ℚ := fl (mkRat 10 100)

/-- The running weight total of `calculateMatchScore` as the source's
double arithmetic computes it: `weights = 0`, then four `weights += w`
steps, each one a binary64 addition. -/
def flWeightTotal : ℚ :=
  fl (qadd (fl (qadd (fl (qadd (fl (qadd 0 d035)) d030)) d025)) d010)

/-!
## Sanity checks on concrete inputs
-/

example : splitSep isSpaceChar ("a b".toList) = [("a").toList, ("b").toList] := by decide
example : splitSep isSpaceChar (" a ".toList) = [[], ("a").toList, []] := by decide
example : splitSep isSpaceChar ([] : Str) = [[]] := by decide
example : vowelRuns ("bean pot".toList) = [("ea").toList, ("o").toList] := by decide
example : containsSub ("melancholic".toList) ("chol".toList) = true := by decide
example : containsSub ("cat".toList) ("dog".toList) = false := by decide
example : endsWithB ("bright".toList) ("ight".toList) = true := by decide
example : lastN 2 ("love".toList) = ("ve").toList := by decide
example : extractRhymePatterns ("bright light night".toList) = [("ight").toList] := by decide
example : rhymeMatch ("love".toList) ("dove".toList) = true := by decide
example : rhymeMatch ("cat".toList) ("dog".toList) = false := by decide
example : calculateRhymeScore [("ight").toList, ("love").toList]
    [("bright").toList, ("stove").toList] = 1 := by decide
example : calculateRhymeScore [] [("a").toList] = 0 := by decide
example :
    (calculateMatchScore ⟨[("love").toList], [], [], []⟩
      ⟨1, [], [], [("love").toList], [], [], [], []⟩).score = mkRat 35 100 := by decide
example :
    (calculateMatchScore
      ⟨[("nostalgia").toList, ("memory").toList], [("ight").toList],
        ("melancholic, reflective").toList, []⟩
      ⟨1, [], [], [("nostalgia").toList, ("love").toList], [("ight").toList, ("ove").toList],
        ("melancholic").toList, [], []⟩).score = mkRat 6 10 := by decide
example :
    (calculateMatchScore ⟨[("love").toList], [], [], []⟩
      ⟨1, [], [], [("love").toList], [], [], [], []⟩).reasons =
      [("Shared themes: love").toList] := by decide

/-!
## Theorems
-/

theorem qadd_eq (a b : ℚ) : qadd a b = a + b := by
  have ha : ((a.den : ℚ)) ≠ 0 := Nat.cast_ne_zero.mpr a.den_nz
  have hb : ((b.den : ℚ)) ≠ 0 := Nat.cast_ne_zero.mpr b.den_nz
  rw [qadd, Rat.mkRat_eq_div]
  push_cast
  conv_rhs => rw [← Rat.num_div_den a, ← Rat.num_div_den b, div_add_div _ _ ha hb]
  ring_nf

theorem qmul_eq (a b : ℚ) : qmul a b = a * b := by
  rw [qmul, Rat.mkRat_eq_div]
  push_cast
  conv_rhs => rw [← Rat.num_div_den a, ← Rat.num_div_den b, div_mul_div_comm]

theorem qneg_eq (a : ℚ) : qneg a = -a := by
  rw [qneg, Rat.mkRat_eq_div]
  push_cast
  rw [neg_div, Rat.num_div_den]

theorem qsub_eq (a b : ℚ) : qsub a b = a - b := by
  rw [qsub, qadd_eq, qneg_eq, sub_eq_add_neg]

theorem qdiv_eq (a b : ℚ) : qdiv a b = a / b := by
  rw [qdiv, Rat.divInt_eq_div]
  rcases eq_or_ne b 0 with hb | hb
  · subst hb; simp
  · have han : ((a.den : ℚ)) ≠ 0 := Nat.cast_ne_zero.mpr a.den_nz
    have hbd : ((b.den : ℚ)) ≠ 0 := Nat.cast_ne_zero.mpr b.den_nz
    have hbn : ((b.num : ℚ)) ≠ 0 := Int.cast_ne_zero.mpr (Rat.num_ne_zero.mpr hb)
    push_cast
    conv_rhs => rw [← Rat.num_div_den a, ← Rat.num_div_den b]
    field_simp

theorem qmin_eq_min (a b : ℚ) : qmin a b = min a b := (min_def a b).symm

theorem natMin_eq_min (a b : Nat) : natMin a b = min a b := (min_def a b).symm

theorem natMax_eq_max (a b : Nat) : natMax a b = max a b := (max_def a b).symm

theorem endsWithB_iff (s t : Str) : endsWithB s t = true ↔ t <:+ s := by
  rw [endsWithB, decide_eq_true_iff]
  constructor
  · intro h; rw [← h]; exact List.drop_suffix _ _
  · intro h; exact (List.suffix_iff_eq_drop.mp h).symm

theorem containsSub_iff (hay needle : Str) : containsSub hay needle = true ↔ needle <:+: hay := by
  induction hay with
  | nil => simp [containsSub]
  | cons c rest ih =>
    rw [containsSub, Bool.or_eq_true, decide_eq_true_iff, ih, List.infix_cons_iff,
      List.prefix_iff_eq_take]
    constructor
    · rintro (h | h)
      · exact Or.inl h.symm
      · exact Or.inr h
    · rintro (h | h)
      · exact Or.inl h.symm
      · exact Or.inr h

theorem lastN_nil (n : Nat) : lastN n ([] : Str) = [] := by simp [lastN]

theorem endsWithB_nil (s : Str) : endsWithB s [] = true := by
  rw [endsWithB, decide_eq_true_iff, lastN]
  simp

theorem rhymeMatch_nil_left (p2 : Str) : rhymeMatch [] p2 = true := by
  simp only [rhymeMatch]
  split_ifs with h1 h2
  · rfl
  · rfl
  · exfalso
    apply h2
    rw [Bool.or_eq_true]
    exact Or.inl (by simpa [lowerStr, lastN_nil] using endsWithB_nil (lowerStr p2))
  · exfalso
    apply h2
    rw [Bool.or_eq_true]
    exact Or.inl (by simpa [lowerStr, lastN_nil] using endsWithB_nil (lowerStr p2))

theorem findIdx2_nil_none :
    ∀ (ps : List Str) (start : Nat) (checked : List Nat),
      findIdx2 [] ps start checked = none → ∀ j, j < ps.length → (start + j) ∈ checked := by
  intro ps
  induction ps with
  | nil => intro start checked _ j hj; exact absurd hj (by simp)
  | cons p ps ih =>
    intro start checked h j hj
    rw [findIdx2] at h
    by_cases hc : start ∉ checked ∧ rhymeMatch [] p = true
    · rw [if_pos hc] at h
      exact absurd h (Option.some_ne_none _)
    · rw [if_neg hc] at h
      have hstart : start ∈ checked := by
        by_contra hs
        exact hc ⟨hs, rhymeMatch_nil_left p⟩
      rcases Nat.eq_zero_or_pos j with hj0 | hjp
      · subst hj0
        simpa using hstart
      · obtain ⟨j', rfl⟩ : ∃ j', j = j' + 1 := ⟨j - 1, by omega⟩
        have hrec := ih (start + 1) checked h j' (by simpa [Nat.succ_lt_succ_iff] using hj)
        have harith : start + (j' + 1) = (start + 1) + j' := by omega
        rw [harith]
        exact hrec

theorem greedyMatches_pos :
    ∀ (ps1 ps2 : List Str) (checked : List Nat), [] ∈ ps1 →
      (∃ i, i < ps2.length ∧ i ∉ checked) → 1 ≤ (greedyMatches ps1 ps2 checked).1 := by
  intro ps1
  induction ps1 with
  | nil => intro ps2 checked h _; exact absurd h (by simp)
  | cons p rest ih =>
    intro ps2 checked hmem hex
    rcases hfind : findIdx2 p ps2 0 checked with _ | i
    · rw [greedyMatches, hfind]
      rcases List.mem_cons.mp hmem with h | h
      · exfalso
        obtain ⟨i, hi, hni⟩ := hex
        exact hni (by simpa using findIdx2_nil_none ps2 0 checked (h ▸ hfind) i hi)
      · exact ih ps2 checked h hex
    · rw [greedyMatches, hfind]
      exact Nat.le_add_left 1 _

/-- C4: `rhymeMatch` returns true exactly when one of the three escalating
rules fires: exact equality of the lowercased patterns; the first pattern's
last 3 or last 2 characters being a suffix of the second (asymmetric);
or both concatenated maximal vowel runs having length at least 2 and
agreeing on their last 2 characters. -/
theorem rhymeMatch_iff_rules (pattern1 pattern2 : Str) :
    rhymeMatch pattern1 pattern2 = true ↔
      (lowerStr pattern1 = lowerStr pattern2
       ∨ lastN 3 (lowerStr pattern1) <:+ lowerStr pattern2
       ∨ lastN 2 (lowerStr pattern1) <:+ lowerStr pattern2
       ∨ (2 ≤ ((vowelRuns (lowerStr pattern1)).flatten).length
          ∧ 2 ≤ ((vowelRuns (lowerStr pattern2)).flatten).length
          ∧ lastN 2 ((vowelRuns (lowerStr pattern1)).flatten) =
            lastN 2 ((vowelRuns (lowerStr pattern2)).flatten))) := by
  simp only [rhymeMatch]
  split_ifs with h1 h2 h3
  · simp [h1]
  · rw [Bool.or_eq_true, endsWithB_iff, endsWithB_iff] at h2
    simp only [true_iff]
    tauto
  · rw [Bool.or_eq_true, endsWithB_iff, endsWithB_iff] at h2
    push_neg at h2
    rw [decide_eq_true_iff]
    constructor
    · intro he
      exact Or.inr (Or.inr (Or.inr ⟨h3.1, h3.2, he⟩))
    · rintro (h | h | h | ⟨_, _, he⟩)
      · exact absurd h h1
      · exact absurd h h2.1
      · exact absurd h h2.2
      · exact he
  · rw [Bool.or_eq_true, endsWithB_iff, endsWithB_iff] at h2
    push_neg at h2
    simp only [Bool.false_eq_true, false_iff]
    rintro (h | h | h | ⟨ha, hb, _⟩)
    · exact h1 h
    · exact h2.1 h
    · exact h2.2 h
    · exact h3 ⟨ha, hb⟩

/-- C10: `rhymeMatch` with an empty first pattern is true against every
second pattern (the empty suffix rule fires), and consequently
`calculateRhymeScore` on a first list containing the empty pattern and a
non-empty second list is strictly positive. -/
theorem rhymeMatch_empty_pattern (b : Str) (ps1 ps2 : List Str)
    (h1 : [] ∈ ps1) (h2 : ps2 ≠ []) :
    rhymeMatch [] b = true ∧ 0 < calculateRhymeScore ps1 ps2 := by
  refine ⟨rhymeMatch_nil_left b, ?_⟩
  have hps1 : ps1 ≠ [] := List.ne_nil_of_mem h1
  have hcond : ¬(ps1.length = 0 ∨ ps2.length = 0) := by
    simp [List.length_eq_zero, hps1, h2]
  rw [calculateRhymeScore, if_neg hcond]
  have hm : 1 ≤ (greedyMatches ps1 ps2 []).1 := by
    apply greedyMatches_pos ps1 ps2 [] h1
    exact ⟨0, List.length_pos.mpr h2, by simp⟩
  rw [qmin_eq_min, qdiv_eq, lt_min_iff]
  refine ⟨div_pos ?_ ?_, one_pos⟩
  · exact_mod_cast Nat.lt_of_lt_of_le Nat.zero_lt_one hm
  · rw [natMin_eq_min]
    have : 0 < min ps1.length ps2.length :=
      lt_min (List.length_pos.mpr hps1) (List.length_pos.mpr h2)
    exact_mod_cast this

theorem extractAux_eq_dedupFirst :
    ∀ (ws : List Str) (seen : List Str),
      extractAux ws seen = (dedupFirst (ws.map ending)).filter (fun e => decide (e ∉ seen)) := by
  intro ws
  induction ws with
  | nil => intro seen; rfl
  | cons w ws ih =>
    intro seen
    rw [List.map_cons, dedupFirst, extractAux]
    by_cases hs : ending w ∈ seen
    · rw [if_pos hs, List.filter_cons_of_neg (by simpa using hs), List.filter_filter, ih seen]
      apply List.filter_congr
      intro y _
      by_cases hyx : y = ending w
      · subst hyx; simp [hs]
      · simp [hyx]
    · rw [if_neg hs, List.filter_cons_of_pos (by simpa using hs), List.filter_filter,
        ih (ending w :: seen)]
      congr 1
      apply List.filter_congr
      intro y _
      by_cases hyx : y = ending w
      · subst hyx; simp
      · simp [hyx]

/-- C5 (amended): the extraction pipeline of the source equals the
specification's pipeline once underscores are added to the kept character
class, and empty input yields an empty result. -/
theorem extractRhymePatterns_spec_amended (text : Str) :
    extractRhymePatterns text = extractSpecAmended text ∧
      extractRhymePatterns ([] : Str) = [] := by
  constructor
  · rw [extractRhymePatterns, extractSpecAmended, extractAux_eq_dedupFirst]
    apply List.filter_eq_self.mpr
    intro e _
    simp
  · decide

/-- C5 counterexample: on the input `a_b_` the source keeps the underscore
(`\w` includes it) and produces the pattern `a_b_`, while the
specification's stated character class strips it, leaving a too-short token
and an empty result. -/
theorem extract_underscore_counterexample :
    extractRhymePatterns (("a_b_").toList) ≠ extractSpecStated (("a_b_").toList) := by decide

theorem flagsFrom_nil : ∀ (ps : List Str) (n : Nat), flagsFrom n ps [] =
    ps.map (fun p => (p, true)) := by
  intro ps
  induction ps with
  | nil => intro n; rfl
  | cons p ps ih =>
    intro n
    simp only [flagsFrom, List.enumFrom, List.map_cons] at *
    rw [ih (n + 1)]
    simp

theorem flagsFrom_cons_out :
    ∀ (ps : List Str) (m i : Nat) (checked : List Nat), i < m →
      flagsFrom m ps (i :: checked) = flagsFrom m ps checked := by
  intro ps
  induction ps with
  | nil => intro m i checked _; rfl
  | cons p ps ih =>
    intro m i checked him
    simp only [flagsFrom, List.enumFrom, List.map_cons] at *
    rw [ih (m + 1) i checked (by omega)]
    have hdec : decide (m ∉ i :: checked) = decide (m ∉ checked) := by
      apply decide_eq_decide.mpr
      constructor
      · intro hm hmc; exact hm (List.mem_cons_of_mem i hmc)
      · intro hm hmic
        rcases List.mem_cons.mp hmic with h | h
        · omega
        · exact hm h
    rw [hdec]

theorem findIdx2_markFirst_none (q : Str) :
    ∀ (ps : List Str) (n : Nat) (checked : List Nat),
      findIdx2 q ps n checked = none → markFirst q (flagsFrom n ps checked) = none := by
  intro ps
  induction ps with
  | nil => intro n checked _; rfl
  | cons p ps ih =>
    intro n checked h
    rw [findIdx2] at h
    by_cases hc : n ∉ checked ∧ rhymeMatch q p = true
    · rw [if_pos hc] at h
      exact absurd h (Option.some_ne_none _)
    · rw [if_neg hc] at h
      show markFirst q ((p, decide (n ∉ checked)) :: flagsFrom (n + 1) ps checked) = none
      rw [markFirst]
      rw [if_neg (by
        rintro ⟨hd, hr⟩
        exact hc ⟨of_decide_eq_true hd, hr⟩)]
      rw [ih (n + 1) checked h]

theorem findIdx2_markFirst_some (q : Str) :
    ∀ (ps : List Str) (n : Nat) (checked : List Nat) (i : Nat),
      findIdx2 q ps n checked = some i →
        n ≤ i ∧ markFirst q (flagsFrom n ps checked) = some (flagsFrom n ps (i :: checked)) := by
  intro ps
  induction ps with
  | nil => intro n checked i h; exact absurd h (by rw [findIdx2]; exact Option.noConfusion)
  | cons p ps ih =>
    intro n checked i h
    rw [findIdx2] at h
    by_cases hc : n ∉ checked ∧ rhymeMatch q p = true
    · rw [if_pos hc] at h
      have hni : n = i := by injection h
      subst hni
      refine ⟨Nat.le_refl n, ?_⟩
      show markFirst q ((p, decide (n ∉ checked)) :: flagsFrom (n + 1) ps checked) = _
      rw [markFirst, if_pos ⟨decide_eq_true hc.1, hc.2⟩]
      show _ = some ((p, decide (n ∉ n :: checked)) :: flagsFrom (n + 1) ps (n :: checked))
      rw [flagsFrom_cons_out ps (n + 1) n checked (Nat.lt_succ_self n)]
      have hdec : decide (n ∉ n :: checked) = false := by
        simp
      rw [hdec]
    · rw [if_neg hc] at h
      obtain ⟨hni, hmark⟩ := ih (n + 1) checked i h
      refine ⟨by omega, ?_⟩
      show markFirst q ((p, decide (n ∉ checked)) :: flagsFrom (n + 1) ps checked) = _
      rw [markFirst]
      rw [if_neg (by
        rintro ⟨hd, hr⟩
        exact hc ⟨of_decide_eq_true hd, hr⟩)]
      rw [hmark]
      show _ = some ((p, decide (n ∉ i :: checked)) :: flagsFrom (n + 1) ps (i :: checked))
      have hdec : decide (n ∉ i :: checked) = decide (n ∉ checked) := by
        apply decide_eq_decide.mpr
        constructor
        · intro hm hmc; exact hm (List.mem_cons_of_mem i hmc)
        · intro hm hmic
          rcases List.mem_cons.mp hmic with hh | hh
          · omega
          · exact hm hh
      rw [hdec]

theorem greedyMatches_eq_spec :
    ∀ (ps1 ps2 : List Str) (checked : List Nat),
      (greedyMatches ps1 ps2 checked).1 = greedyCountSpec ps1 (flagsFrom 0 ps2 checked) := by
  intro ps1
  induction ps1 with
  | nil => intro ps2 checked; rfl
  | cons p rest ih =>
    intro ps2 checked
    rcases hfind : findIdx2 p ps2 0 checked with _ | i
    · rw [greedyMatches, hfind, greedyCountSpec, findIdx2_markFirst_none p ps2 0 checked hfind]
      exact ih ps2 checked
    · obtain ⟨_, hmark⟩ := findIdx2_markFirst_some p ps2 0 checked i hfind
      rw [greedyMatches, hfind, greedyCountSpec, hmark]
      simp only
      rw [ih ps2 (i :: checked)]

/-- C3: `calculateRhymeScore` returns 0 when either list is empty, and
otherwise the greedy one-to-one match count — in the specification's
claim-the-first-available-element formulation — divided by the smaller
length, capped at 1. -/
theorem calculateRhymeScore_greedy_spec (ps1 ps2 : List Str) :
    calculateRhymeScore ps1 ps2 =
      if ps1 = [] ∨ ps2 = [] then 0
      else min ((greedyCountSpec ps1 (ps2.map (fun p => (p, true))) : ℚ) /
        ((min ps1.length ps2.length : Nat) : ℚ)) 1 := by
  rw [calculateRhymeScore]
  by_cases h : ps1.length = 0 ∨ ps2.length = 0
  · rw [if_pos h, if_pos (by simpa [List.length_eq_zero] using h)]
  · rw [if_neg h, if_neg (by simpa [List.length_eq_zero] using h)]
    rw [qmin_eq_min, qdiv_eq, natMin_eq_min, greedyMatches_eq_spec ps1 ps2 [], flagsFrom_nil]

theorem mkRat_35_eq : mkRat 35 100 = (0.35 : ℚ) := by
  rw [Rat.mkRat_eq_div]; norm_num

theorem mkRat_30_eq : mkRat 30 100 = (0.30 : ℚ) := by
  rw [Rat.mkRat_eq_div]; norm_num

theorem mkRat_25_eq : mkRat 25 100 = (0.25 : ℚ) := by
  rw [Rat.mkRat_eq_div]; norm_num

theorem mkRat_10_eq : mkRat 10 100 = (0.10 : ℚ) := by
  rw [Rat.mkRat_eq_div]; norm_num

theorem mkRat_3_10_eq : mkRat 3 10 = (0.3 : ℚ) := by
  rw [Rat.mkRat_eq_div]; norm_num

theorem min_div_cast_pos {n d : Nat} (hn : 0 < n) (hd : 0 < d) :
    0 < min ((n : ℚ) / (d : ℚ)) 1 :=
  lt_min (div_pos (by exact_mod_cast hn) (by exact_mod_cast hd)) one_pos

theorem calculateRhymeScore_nonneg (ps1 ps2 : List Str) :
    0 ≤ calculateRhymeScore ps1 ps2 := by
  rw [calculateRhymeScore]
  split_ifs with h
  · exact le_refl 0
  · rw [qmin_eq_min, qdiv_eq]
    exact le_min (div_nonneg (Nat.cast_nonneg _) (Nat.cast_nonneg _)) zero_le_one

theorem themePart_fst (a : LyricAnalysis) (l : Lyric) :
    (themePart a l).1 = 0.35 * themeSubscore a l := by
  rw [themePart, themeSubscore, overlapScore]
  by_cases h : 0 < (sharedOverlap a.themes l.themes).length
  · rw [if_pos h]
    dsimp only
    rw [qmul_eq, qmin_eq_min, qdiv_eq, natMax_eq_max, mkRat_35_eq]
    ring
  · rw [if_neg h]
    have h0 : (sharedOverlap a.themes l.themes).length = 0 := by omega
    rw [h0]
    norm_num

theorem imageryPart_fst (a : LyricAnalysis) (l : Lyric) :
    (imageryPart a l).1 = 0.10 * imagerySubscore a l := by
  rw [imageryPart, imagerySubscore, overlapScore]
  by_cases h : 0 < (sharedOverlap a.imagery_tags l.imagery_tags).length
  · rw [if_pos h]
    dsimp only
    rw [qmul_eq, qmin_eq_min, qdiv_eq, natMax_eq_max, mkRat_10_eq]
    ring
  · rw [if_neg h]
    have h0 : (sharedOverlap a.imagery_tags l.imagery_tags).length = 0 := by omega
    rw [h0]
    norm_num

theorem rhymePart_fst (a : LyricAnalysis) (l : Lyric) :
    (rhymePart a l).1 = 0.30 * rhymeSubscore a l := by
  rw [rhymePart, rhymeSubscore]
  by_cases h : 0 < calculateRhymeScore a.rhyme_patterns l.rhyme_patterns
  · rw [if_pos h]
    dsimp only
    rw [qmul_eq, mkRat_30_eq]
    ring
  · rw [if_neg h]
    have h0 : calculateRhymeScore a.rhyme_patterns l.rhyme_patterns = 0 :=
      le_antisymm (not_lt.mp h) (calculateRhymeScore_nonneg _ _)
    rw [h0]
    norm_num

theorem moodSubscore_of_nonempty {a : LyricAnalysis} {l : Lyric}
    (hm : a.mood ≠ [] ∧ l.mood ≠ []) :
    moodSubscore a l = min (((sharedMoodTokens a.mood l.mood).length : ℚ) /
      ((max (moodWords a.mood).length 1 : Nat) : ℚ)) 1 := by
  rw [moodSubscore, if_neg (by tauto)]

theorem moodSubscore_of_empty {a : LyricAnalysis} {l : Lyric}
    (hm : a.mood = [] ∨ l.mood = []) : moodSubscore a l = 0 := by
  rw [moodSubscore, if_pos hm]

theorem moodPart_fst (a : LyricAnalysis) (l : Lyric) :
    (moodPart a l).1 = 0.25 * moodSubscore a l := by
  rw [moodPart]
  by_cases hm : a.mood ≠ [] ∧ l.mood ≠ []
  · rw [if_pos hm, moodSubscore_of_nonempty hm]
    by_cases hsh : 0 < (sharedMoodTokens a.mood l.mood).length
    · rw [if_pos hsh]
      dsimp only
      rw [qmul_eq, qmin_eq_min, qdiv_eq, natMax_eq_max, mkRat_25_eq]
      ring
    · rw [if_neg hsh]
      have h0 : (sharedMoodTokens a.mood l.mood).length = 0 := by omega
      rw [h0]
      norm_num
  · rw [if_neg hm, moodSubscore_of_empty (by tauto)]
    norm_num

theorem overlapScore_pos_iff (input cand : List Str) :
    0 < overlapScore input cand ↔ 0 < (sharedOverlap input cand).length := by
  rw [overlapScore]
  constructor
  · intro h
    by_contra hn
    have h0 : (sharedOverlap input cand).length = 0 := by omega
    rw [h0] at h
    norm_num at h
  · intro h
    exact min_div_cast_pos h (lt_of_lt_of_le Nat.one_pos (le_max_right _ _))

theorem themePart_snd (a : LyricAnalysis) (l : Lyric) :
    (themePart a l).2 = if 0 < themeSubscore a l then
      [("Shared themes: ").toList ++ joinComma (sharedOverlap a.themes l.themes)] else [] := by
  rw [themePart, themeSubscore]
  by_cases h : 0 < (sharedOverlap a.themes l.themes).length
  · rw [if_pos h, if_pos ((overlapScore_pos_iff _ _).mpr h)]
  · rw [if_neg h, if_neg (fun hp => h ((overlapScore_pos_iff _ _).mp hp))]

theorem imageryPart_snd (a : LyricAnalysis) (l : Lyric) :
    (imageryPart a l).2 = if 0 < imagerySubscore a l then
      [("Matching imagery: ").toList ++ joinComma (sharedOverlap a.imagery_tags l.imagery_tags)]
      else [] := by
  rw [imageryPart, imagerySubscore]
  by_cases h : 0 < (sharedOverlap a.imagery_tags l.imagery_tags).length
  · rw [if_pos h, if_pos ((overlapScore_pos_iff _ _).mpr h)]
  · rw [if_neg h, if_neg (fun hp => h ((overlapScore_pos_iff _ _).mp hp))]

theorem rhymePart_snd (a : LyricAnalysis) (l : Lyric) :
    (rhymePart a l).2 = if (0.3 : ℚ) < rhymeSubscore a l then
      [("Compatible rhyme patterns").toList] else [] := by
  rw [rhymePart, rhymeSubscore]
  by_cases h : 0 < calculateRhymeScore a.rhyme_patterns l.rhyme_patterns
  · rw [if_pos h]
    dsimp only
    rw [mkRat_3_10_eq]
  · rw [if_neg h]
    have h0 : calculateRhymeScore a.rhyme_patterns l.rhyme_patterns = 0 :=
      le_antisymm (not_lt.mp h) (calculateRhymeScore_nonneg _ _)
    rw [if_neg (by rw [h0]; norm_num)]

theorem moodSubscore_pos_iff (a : LyricAnalysis) (l : Lyric) :
    0 < moodSubscore a l ↔
      ((a.mood ≠ [] ∧ l.mood ≠ []) ∧ 0 < (sharedMoodTokens a.mood l.mood).length) := by
  by_cases hm : a.mood = [] ∨ l.mood = []
  · rw [moodSubscore_of_empty hm]
    simp only [lt_self_iff_false, false_iff]
    tauto
  · rw [moodSubscore_of_nonempty (by tauto)]
    constructor
    · intro h
      refine ⟨by tauto, ?_⟩
      by_contra hn
      have h0 : (sharedMoodTokens a.mood l.mood).length = 0 := by omega
      rw [h0] at h
      norm_num at h
    · intro h
      exact min_div_cast_pos h.2 (lt_of_lt_of_le Nat.one_pos (le_max_right _ _))

theorem moodPart_snd (a : LyricAnalysis) (l : Lyric) :
    (moodPart a l).2 = if 0 < moodSubscore a l then
      [("Similar mood: ").toList ++ l.mood] else [] := by
  rw [moodPart]
  by_cases hm : a.mood ≠ [] ∧ l.mood ≠ []
  · rw [if_pos hm]
    by_cases hsh : 0 < (sharedMoodTokens a.mood l.mood).length
    · rw [if_pos hsh, if_pos ((moodSubscore_pos_iff a l).mpr ⟨hm, hsh⟩)]
    · rw [if_neg hsh,
        if_neg (fun hp => hsh ((moodSubscore_pos_iff a l).mp hp).2)]
  · rw [if_neg hm,
      if_neg (fun hp => hm ((moodSubscore_pos_iff a l).mp hp).1)]

theorem qweights_eq_one :
    qadd (qadd (qadd (mkRat 35 100) (mkRat 30 100)) (mkRat 25 100)) (mkRat 10 100) = 1 := by
  decide

theorem accumulatedWeightTotal_eq_one : accumulatedWeightTotal = 1 := by
  rw [accumulatedWeightTotal]; norm_num

theorem calculateMatchScore_score_eq (a : LyricAnalysis) (l : Lyric) :
    (calculateMatchScore a l).score =
      (0.35 * themeSubscore a l + 0.30 * rhymeSubscore a l + 0.25 * moodSubscore a l +
        0.10 * imagerySubscore a l) / accumulatedWeightTotal := by
  rw [calculateMatchScore]
  dsimp only
  rw [qweights_eq_one, if_pos one_pos, qdiv_eq, qadd_eq, qadd_eq, qadd_eq,
    themePart_fst, rhymePart_fst, moodPart_fst, imageryPart_fst, accumulatedWeightTotal_eq_one]

theorem calculateMatchScore_reasons_eq (a : LyricAnalysis) (l : Lyric) :
    (calculateMatchScore a l).reasons =
      (if 0 < themeSubscore a l then
        [("Shared themes: ").toList ++ joinComma (sharedOverlap a.themes l.themes)] else []) ++
      (if (0.3 : ℚ) < rhymeSubscore a l then [("Compatible rhyme patterns").toList] else []) ++
      (if 0 < moodSubscore a l then [("Similar mood: ").toList ++ l.mood] else []) ++
      (if 0 < imagerySubscore a l then
        [("Matching imagery: ").toList ++ joinComma (sharedOverlap a.imagery_tags l.imagery_tags)]
        else []) := by
  rw [calculateMatchScore]
  dsimp only
  rw [themePart_snd, rhymePart_snd, moodPart_snd, imageryPart_snd]

/-- C1: the returned score is the weighted sum of the four sub-scores
(theme 0.35, rhyme 0.30, mood 0.25, imagery 0.10) divided by the
accumulated weight total, and each reason string is appended exactly when
its factor's sub-score is strictly positive — except the rhyme reason,
which needs the sub-score to exceed 0.3. -/
theorem calculateMatchScore_weights_reasons (a : LyricAnalysis) (l : Lyric) :
    (calculateMatchScore a l).score =
      (0.35 * themeSubscore a l + 0.30 * rhymeSubscore a l + 0.25 * moodSubscore a l +
        0.10 * imagerySubscore a l) / accumulatedWeightTotal ∧
    (calculateMatchScore a l).reasons =
      (if 0 < themeSubscore a l then
        [("Shared themes: ").toList ++ joinComma (sharedOverlap a.themes l.themes)] else []) ++
      (if (0.3 : ℚ) < rhymeSubscore a l then [("Compatible rhyme patterns").toList] else []) ++
      (if 0 < moodSubscore a l then [("Similar mood: ").toList ++ l.mood] else []) ++
      (if 0 < imagerySubscore a l then
        [("Matching imagery: ").toList ++ joinComma (sharedOverlap a.imagery_tags l.imagery_tags)]
        else []) :=
  ⟨calculateMatchScore_score_eq a l, calculateMatchScore_reasons_eq a l⟩

/-- C6: for the theme and imagery factors, an input element is shared
exactly when some candidate element contains it or is contained in it
case-insensitively; the shared list keeps input order (it is a sublist of
the input) and is duplicate-free for duplicate-free input; the sub-score is
`min(shared / max(input, 1), 1)`.  The mood factor applies the same
containment rule to the whitespace/comma tokens of the lowercased mood
strings, and an empty mood string on either side gives sub-score 0 with no
shared words reported. -/
theorem factor_scorers_spec (input cand : List Str) (m1 m2 : Str) (hnd : input.Nodup) :
    (∀ t, t ∈ sharedOverlap input cand ↔
      t ∈ input ∧ ∃ s ∈ cand, (lowerStr t <:+: lowerStr s ∨ lowerStr s <:+: lowerStr t)) ∧
    List.Sublist (sharedOverlap input cand) input ∧
    (sharedOverlap input cand).Nodup ∧
    overlapScore input cand =
      min (((sharedOverlap input cand).length : ℚ) / ((max input.length 1 : Nat) : ℚ)) 1 ∧
    (∀ w, w ∈ sharedMoodTokens m1 m2 ↔
      w ∈ moodWords m1 ∧ ∃ sw ∈ moodWords m2, (w <:+: sw ∨ sw <:+: w)) ∧
    (∀ (a : LyricAnalysis) (l : Lyric), a.mood = [] ∨ l.mood = [] →
      moodSubscore a l = 0 ∧ (moodPart a l).2 = []) := by
  refine ⟨?_, List.filter_sublist _, hnd.filter _, rfl, ?_, ?_⟩
  · intro t
    simp only [sharedOverlap, List.mem_filter, List.any_eq_true, Bool.or_eq_true,
      containsSub_iff]
  · intro w
    simp only [sharedMoodTokens, List.mem_filter, List.any_eq_true, Bool.or_eq_true,
      containsSub_iff]
  · intro a l h
    refine ⟨moodSubscore_of_empty h, ?_⟩
    rw [moodPart, if_neg (by tauto)]

/-- Witness for `factor_scorers_spec` at concrete inputs. -/
theorem factor_scorers_spec_witness :
    ([("love").toList, ("night").toList] : List Str).Nodup ∧
      (sharedOverlap [("love").toList, ("night").toList] [("lovely").toList]).Nodup :=
  ⟨by decide,
    (factor_scorers_spec [("love").toList, ("night").toList] [("lovely").toList]
      (("sad").toList) (("sad").toList) (by decide)).2.2.1⟩

/-- C2: every suggestion the pipeline returns has score strictly above 0.1
and a non-empty reason list (hence every returned result with positive
score has non-empty reasons), and a candidate whose reason list is empty is
excluded from the output. -/
theorem suggestions_filter_invariant (a : LyricAnalysis) (lyrics : List Lyric)
    (s : LyricSuggestion) (l : Lyric)
    (hs : s ∈ suggestionsFor a lyrics)
    (hr : (calculateMatchScore a l).reasons = []) :
    ((0.1 : ℚ) < s.match_score ∧ s.match_reasons ≠ [] ∧
      (0 < s.match_score → s.match_reasons ≠ [])) ∧
    suggestionsFor a [l] = [] := by
  constructor
  · rw [suggestionsFor] at hs
    obtain ⟨lyric, hmem, heq⟩ := List.mem_filterMap.mp hs
    dsimp only at heq
    by_cases hc : mkRat 1 10 < (calculateMatchScore a lyric).score ∧
        (calculateMatchScore a lyric).reasons ≠ []
    · rw [if_pos hc] at heq
      have hs' := Option.some.inj heq
      subst hs'
      refine ⟨?_, hc.2, fun _ => hc.2⟩
      have h110 : mkRat 1 10 = (0.1 : ℚ) := by rw [Rat.mkRat_eq_div]; norm_num
      rw [← h110]
      exact hc.1
    · rw [if_neg hc] at heq
      exact absurd heq (Option.noConfusion)
  · rw [suggestionsFor]
    apply List.filterMap_eq_nil_iff.mpr
    intro x hx
    obtain rfl : x = l := List.mem_singleton.mp hx
    dsimp only
    rw [if_neg (by
      rintro ⟨_, hne⟩
      exact hne hr)]

/-- Witness for `suggestions_filter_invariant` at concrete inputs. -/
theorem suggestions_filter_invariant_witness :
    ((⟨⟨1, [], [], [("love").toList], [], [], [], []⟩, mkRat 7 20,
        [("Shared themes: love").toList], none⟩ : LyricSuggestion) ∈
      suggestionsFor ⟨[("love").toList], [], [], []⟩
        [⟨1, [], [], [("love").toList], [], [], [], []⟩] ∧
      (calculateMatchScore ⟨[("love").toList], [], [], []⟩
        ⟨2, [], [], [], [], [], [], []⟩).reasons = []) ∧
    (((0.1 : ℚ) < mkRat 7 20 ∧
        ([("Shared themes: love").toList] : List Str) ≠ [] ∧
        (0 < mkRat 7 20 → ([("Shared themes: love").toList] : List Str) ≠ [])) ∧
      suggestionsFor ⟨[("love").toList], [], [], []⟩ [⟨2, [], [], [], [], [], [], []⟩] = []) :=
  ⟨⟨by decide, by decide⟩,
    suggestions_filter_invariant ⟨[("love").toList], [], [], []⟩
      [⟨1, [], [], [("love").toList], [], [], [], []⟩]
      ⟨⟨1, [], [], [("love").toList], [], [], [], []⟩, mkRat 7 20,
        [("Shared themes: love").toList], none⟩
      ⟨2, [], [], [], [], [], [], []⟩ (by decide) (by decide)⟩

set_option maxRecDepth 40000 in
/-- C8 counterexample: in the source's double arithmetic the accumulated
weight total is `0.9999999999999999 = (2^53 - 1) / 2^53`, not exactly 1.0,
and dividing by it is not bit-for-bit the identity: `0.5 / weightTotal`
rounds to `0.5000000000000001`. -/
theorem float_weight_total_counterexample :
    flWeightTotal ≠ 1 ∧
      flWeightTotal = mkRat 9007199254740991 9007199254740992 ∧
      fl (qdiv (mkRat 1 2) flWeightTotal) = mkRat 4503599627370497 9007199254740992 ∧
      fl (qdiv (mkRat 1 2) flWeightTotal) ≠ mkRat 1 2 := by
  refine ⟨by decide, by decide, by decide, by decide⟩

set_option maxRecDepth 40000 in
/-- C8 (amended): in exact rational arithmetic the accumulated weight total
is exactly 1 and the normalisation divides by it, so the returned score
equals the unnormalised weighted total; in the source's IEEE double
arithmetic, however, the accumulated weight total is `1 - 2⁻⁵³`
(`0.9999999999999999`), not 1.0, so the division is not bit-for-bit the
identity there. -/
theorem weight_total_amended (a : LyricAnalysis) (l : Lyric) :
    accumulatedWeightTotal = 1 ∧
    (calculateMatchScore a l).score =
      0.35 * themeSubscore a l + 0.30 * rhymeSubscore a l + 0.25 * moodSubscore a l +
        0.10 * imagerySubscore a l ∧
    flWeightTotal = 1 - (1 / 2) ^ 53 ∧ flWeightTotal ≠ 1 := by
  refine ⟨accumulatedWeightTotal_eq_one, ?_, ?_, by decide⟩
  · rw [calculateMatchScore_score_eq, accumulatedWeightTotal_eq_one, div_one]
  · have h : flWeightTotal = mkRat 9007199254740991 9007199254740992 := by decide
    rw [h, Rat.mkRat_eq_div]
    norm_num

theorem generateAdaptationsAux_eq (oracle : LyricSuggestion → Option Str) :
    ∀ (rest acc : List LyricSuggestion),
      generateAdaptationsAux oracle acc rest = acc ++ rest.map (adaptOne oracle) := by
  intro rest
  induction rest with
  | nil => intro acc; rw [generateAdaptationsAux]; simp
  | cons s rest ih =>
    intro acc
    rw [generateAdaptationsAux, ih]
    simp

theorem stripAdapt_adaptOne (oracle : LyricSuggestion → Option Str) (t : LyricSuggestion) :
    stripAdapt (adaptOne oracle t) = stripAdapt t := by
  rw [adaptOne]
  cases oracle t <;> rfl

theorem generateAdaptations_eq_map (oracle : LyricSuggestion → Option Str)
    (l : List LyricSuggestion) :
    generateAdaptations oracle l = l.map (adaptOne oracle) := by
  rw [generateAdaptations, generateAdaptationsAux_eq]
  rfl

/-- C9: adaptation calls are attempted independently — the loop is
element-wise (a map), so one candidate's outcome never affects another's;
a failed call (`none`) leaves its suggestion unchanged, so it still
appears, without an adaptation; every outcome leaves the underlying
suggestion fields intact, so the returned list stays in rank order; and
the loop is total, so failure is never surfaced as an error. -/
theorem generateAdaptations_independent (oracle : LyricSuggestion → Option Str)
    (l : List LyricSuggestion) (s : LyricSuggestion) (h : oracle s = none) :
    generateAdaptations oracle l = l.map (adaptOne oracle) ∧
    (generateAdaptations oracle l).length = l.length ∧
    adaptOne oracle s = s ∧
    (∀ t, stripAdapt (adaptOne oracle t) = stripAdapt t) := by
  refine ⟨generateAdaptations_eq_map oracle l, ?_, ?_, stripAdapt_adaptOne oracle⟩
  · rw [generateAdaptations_eq_map, List.length_map]
  · rw [adaptOne, h]

/-- Witness for `generateAdaptations_independent` at concrete inputs. -/
theorem generateAdaptations_independent_witness :
    ((fun _ : LyricSuggestion => (none : Option Str))
        (⟨⟨1, [], [], [], [], [], [], []⟩, 0, [], none⟩ : LyricSuggestion) = none) ∧
      adaptOne (fun _ => none) (⟨⟨1, [], [], [], [], [], [], []⟩, 0, [], none⟩ : LyricSuggestion) =
        (⟨⟨1, [], [], [], [], [], [], []⟩, 0, [], none⟩ : LyricSuggestion) :=
  ⟨rfl,
    (generateAdaptations_independent (fun _ => none)
      [⟨⟨1, [], [], [], [], [], [], []⟩, 0, [], none⟩]
      (⟨⟨1, [], [], [], [], [], [], []⟩, 0, [], none⟩ : LyricSuggestion) rfl).2.2.1⟩

theorem filter_orderedInsert_score (x : LyricSuggestion) (l : List LyricSuggestion) (q : ℚ) :
    (List.orderedInsert (fun a b => b.match_score ≤ a.match_score) x l).filter
      (fun y => decide (y.match_score = q)) =
    if x.match_score = q then
      x :: l.filter (fun y => decide (y.match_score = q))
    else l.filter (fun y => decide (y.match_score = q)) := by
  induction l with
  | nil =>
    by_cases hx : x.match_score = q
    · rw [if_pos hx]; simp [List.orderedInsert, hx]
    · rw [if_neg hx]; simp [List.orderedInsert, hx]
  | cons y ys ih =>
    rw [List.orderedInsert]
    by_cases hr : y.match_score ≤ x.match_score
    · rw [if_pos hr]
      by_cases hx : x.match_score = q
      · rw [if_pos hx]; simp [List.filter_cons, hx]
      · rw [if_neg hx]; simp [List.filter_cons, hx]
    · rw [if_neg hr]
      have hxy : x.match_score < y.match_score := not_le.mp hr
      by_cases hy : y.match_score = q
      · have hx : x.match_score ≠ q := by rw [← hy]; exact ne_of_lt hxy
        rw [if_neg hx]
        simp [List.filter_cons, hy, ih, hx]
      · by_cases hx : x.match_score = q
        · rw [if_pos hx]
          simp [List.filter_cons, hy, ih, hx]
        · rw [if_neg hx]
          simp [List.filter_cons, hy, ih, hx]

theorem insertionSort_score_stable (l : List LyricSuggestion) (q : ℚ) :
    (List.insertionSort (fun a b => b.match_score ≤ a.match_score) l).filter
      (fun y => decide (y.match_score = q)) =
      l.filter (fun y => decide (y.match_score = q)) := by
  induction l with
  | nil => rfl
  | cons x xs ih =>
    rw [List.insertionSort, filter_orderedInsert_score]
    by_cases hx : x.match_score = q
    · rw [if_pos hx, ih, List.filter_cons, if_pos (by simpa using hx)]
    · rw [if_neg hx, ih, List.filter_cons, if_neg (by simpa using hx)]

theorem rankedDisplay_drop3 (oracle : LyricSuggestion → Option Str)
    (top : List LyricSuggestion) :
    (generateAdaptations oracle (top.take 3) ++ top.drop 3).drop 3 = top.drop 3 := by
  have hlen : (generateAdaptations oracle (top.take 3)).length = (top.take 3).length := by
    rw [generateAdaptations_eq_map, List.length_map]
  rcases le_or_lt 3 top.length with h | h
  · have hA : (generateAdaptations oracle (top.take 3)).length = 3 := by
      rw [hlen, List.length_take]; omega
    have hd := List.drop_left (generateAdaptations oracle (top.take 3)) (top.drop 3)
    rw [hA] at hd
    exact hd
  · have hdrop : top.drop 3 = [] := List.drop_eq_nil_of_le (by omega)
    have hA : (generateAdaptations oracle (top.take 3)).length ≤ 3 := by
      rw [hlen, List.length_take]; omega
    rw [hdrop, List.append_nil, List.drop_eq_nil_of_le hA]

theorem rankedDisplay_take3 (oracle : LyricSuggestion → Option Str)
    (top : List LyricSuggestion) :
    (generateAdaptations oracle (top.take 3) ++ top.drop 3).take 3 =
      generateAdaptations oracle (top.take 3) := by
  have hlen : (generateAdaptations oracle (top.take 3)).length = (top.take 3).length := by
    rw [generateAdaptations_eq_map, List.length_map]
  rcases le_or_lt 3 top.length with h | h
  · have hA : (generateAdaptations oracle (top.take 3)).length = 3 := by
      rw [hlen, List.length_take]; omega
    have ht := List.take_left (generateAdaptations oracle (top.take 3)) (top.drop 3)
    rw [hA] at ht
    exact ht
  · have hdrop : top.drop 3 = [] := List.drop_eq_nil_of_le (by omega)
    have hA : (generateAdaptations oracle (top.take 3)).length ≤ 3 := by
      rw [hlen, List.length_take]; omega
    rw [hdrop, List.append_nil, List.take_of_length_le hA]

/-- C7: the ranker's sort is a permutation of the surviving candidates,
descending in score, and stable — candidates of equal score keep their
input order (the filter at each score value is unchanged); the display set
is the first 5 of the sorted list and the returned list preserves its rank
order element-wise (adaptation only fills the optional field); elements 4
and 5 are returned untouched, and exactly the first 3 are routed through
adaptation generation. -/
theorem ranker_stable_top5 (oracle : LyricSuggestion → Option Str)
    (suggestions : List LyricSuggestion) :
    List.Perm (sortSuggestions suggestions) suggestions ∧
    List.Sorted (fun a b => b.match_score ≤ a.match_score) (sortSuggestions suggestions) ∧
    (∀ q : ℚ, (sortSuggestions suggestions).filter (fun y => decide (y.match_score = q)) =
      suggestions.filter (fun y => decide (y.match_score = q))) ∧
    (rankedDisplay oracle suggestions).map stripAdapt =
      ((sortSuggestions suggestions).take 5).map stripAdapt ∧
    (rankedDisplay oracle suggestions).drop 3 =
      ((sortSuggestions suggestions).take 5).drop 3 ∧
    (rankedDisplay oracle suggestions).take 3 =
      generateAdaptations oracle ((sortSuggestions suggestions).take 3) := by
  haveI hTotal : IsTotal LyricSuggestion (fun a b => b.match_score ≤ a.match_score) :=
    ⟨fun a b => le_total b.match_score a.match_score⟩
  haveI hTrans : IsTrans LyricSuggestion (fun a b => b.match_score ≤ a.match_score) :=
    ⟨fun _ _ _ hab hbc => le_trans hbc hab⟩
  refine ⟨List.perm_insertionSort _ suggestions, List.sorted_insertionSort _ suggestions,
    fun q => insertionSort_score_stable suggestions q, ?_, ?_, ?_⟩
  · rw [rankedDisplay]
    rw [List.map_append, generateAdaptations_eq_map, List.map_map]
    have hcomp : stripAdapt ∘ adaptOne oracle = stripAdapt :=
      funext fun t => stripAdapt_adaptOne oracle t
    rw [hcomp]
    rw [← List.map_append, List.take_append_drop]
  · rw [rankedDisplay]
    exact rankedDisplay_drop3 oracle _
  · rw [rankedDisplay]
    rw [rankedDisplay_take3 oracle _, List.take_take]
    norm_num

/-- Witness for `rhymeMatch_empty_pattern` at concrete inputs. -/
theorem rhymeMatch_empty_pattern_witness :
    ([] : Str) ∈ [([] : Str)] ∧ [("dog").toList] ≠ ([] : List Str) ∧
      (rhymeMatch [] ("dog").toList = true ∧
        0 < calculateRhymeScore [([] : Str)] [("dog").toList]) :=
  ⟨by decide, by decide,
    rhymeMatch_empty_pattern (("dog").toList) [([] : Str)] [("dog").toList]
      (by decide) (by decide)⟩

end LyricVault
